import Mathlib

/-!
Verification development for the TradingButler scalping engine.

This file shallowly embeds the decision/execution pipeline of the
repository (src/indicators.py and src/controller.py) in Lean 4:
floating-point numbers become rationals, NumPy arrays become lists with
`Option` marking the NaN warm-up prefix, the MetaTrader venue becomes an
explicit function from fill policy to order result, and the controller
mutable trade counters become explicit state passed through each
operation.  Theorems at the end settle the frozen specification claims
against these embeddings.
-/

/-! ## Indicator Engine (src/indicators.py) -/

/-- The `self.epsilon` guard of `TechnicalIndicators.__init__` (1e-10). -/
def eps : ℚ := 1 / 10000000000

/-- Successive differences `np.diff(data)`: entry `j` is `data[j+1] - data[j]`. -/
def deltas : List ℚ → List ℚ
  | a :: b :: rest => (b - a) :: deltas (b :: rest)
  | _ => []

/-- Positive parts of the deltas (`np.where(delta > 0, delta, 0)`). -/
def gains (data : List ℚ) : List ℚ :=
  (deltas data).map (fun d => if 0 < d then d else 0)

/-- Negated negative parts of the deltas (`np.where(delta < 0, -delta, 0)`). -/
def losses (data : List ℚ) : List ℚ :=
  (deltas data).map (fun d => if d < 0 then -d else 0)

/-- One Wilder smoothing step: `((avg * (period - 1)) + x) / period`. -/
def wilderStep (period : ℕ) (avg x : ℚ) : ℚ :=
  (avg * ((period : ℚ) - 1) + x) / (period : ℚ)

/-- Wilder-smoothed running average of `xs`: seeded with the mean of the
first `period` entries, then `k` smoothing steps consuming
`xs[period], xs[period+1], ...` in order, exactly as the `avg_gain` /
`avg_loss` recurrences of `TechnicalIndicators.rsi`. -/
def wilderAvg (xs : List ℚ) (period : ℕ) : ℕ → ℚ
  | 0 => (xs.take period).sum / (period : ℚ)
  | k + 1 => wilderStep period (wilderAvg xs period k) (xs.getD (period + k) 0)

/-- The RSI value written at index `i ≥ period` of the result array:
`100 - 100/(1 + rs)` when the smoothed average loss exceeds epsilon,
else `100`. -/
def rsiVal (data : List ℚ) (period i : ℕ) : ℚ :=
  let ag := wilderAvg (gains data) period (i - period)
  let al := wilderAvg (losses data) period (i - period)
  if eps < al then 100 - 100 / (1 + ag / al) else 100

/-- Embedding of `TechnicalIndicators.rsi`: a series shorter than `period + 1` yields the
neutral fallback `50` at every index; otherwise indices below `period`
stay undefined (NaN) and index `i ≥ period` carries `rsiVal`. -/
def rsi (data : List ℚ) (period : ℕ) : List (Option ℚ) :=
  if data.length < period + 1 then
    List.replicate data.length (some 50)
  else
    (List.range data.length).map
      (fun i => if i < period then none else some (rsiVal data period i))

/-- The EMA recurrence of `TechnicalIndicators.ema`, indexed from the seed:
`emaFrom data period k` is the value at array index `period - 1 + k`.
The seed is the mean of the first `period` samples and each step applies
`alpha * x[i] + (1 - alpha) * prev` with `alpha = 2 / (period + 1)`. -/
def emaFrom (data : List ℚ) (period : ℕ) : ℕ → ℚ
  | 0 => (data.take period).sum / (period : ℚ)
  | k + 1 =>
      (2 / ((period : ℚ) + 1)) * data.getD (period + k) 0
        + (1 - 2 / ((period : ℚ) + 1)) * emaFrom data period k

/-- Embedding of `TechnicalIndicators.ema`: series shorter than `period` yields NaN
(`none`) everywhere; otherwise indices below `period - 1` are NaN and the
rest follow the seeded recurrence. -/
def ema (data : List ℚ) (period : ℕ) : List (Option ℚ) :=
  if data.length < period then
    List.replicate data.length none
  else
    (List.range data.length).map
      (fun i => if i < period - 1 then none
                else some (emaFrom data period (i - (period - 1))))

/-- The true range at index `i`: `high - low` at index 0 (no previous
close), otherwise the maximum of `high - low`, `|high - prevClose|` and
`|low - prevClose|`. -/
def trueRange (high low close : List ℚ) (i : ℕ) : ℚ :=
  let tr1 := high.getD i 0 - low.getD i 0
  if i = 0 then tr1
  else max tr1 (max |high.getD i 0 - close.getD (i - 1) 0|
                    |low.getD i 0 - close.getD (i - 1) 0|)

/-- The ATR recurrence of `TechnicalIndicators.atr`, indexed from the seed:
`atrFrom high low close period k` is the value at array index
`period - 1 + k`.  Seed is the mean of the first `period` true ranges;
each step applies `alpha * tr[i] + (1 - alpha) * prev` with
`alpha = 1 / period`. -/
def atrFrom (high low close : List ℚ) (period : ℕ) : ℕ → ℚ
  | 0 => ((List.range period).map (trueRange high low close)).sum / (period : ℚ)
  | k + 1 =>
      (1 / (period : ℚ)) * trueRange high low close (period + k)
        + (1 - 1 / (period : ℚ)) * atrFrom high low close period k

/-- Embedding of `TechnicalIndicators.atr`: mismatched array lengths or a series shorter
than `period + 1` yield the constant fallback `0.01` at every index;
otherwise indices below `period - 1` are NaN and the rest follow the
seeded recurrence. -/
def atr (high low close : List ℚ) (period : ℕ) : List (Option ℚ) :=
  if high.length ≠ low.length ∨ low.length ≠ close.length then
    List.replicate close.length (some (1 / 100))
  else if close.length < period + 1 then
    List.replicate close.length (some (1 / 100))
  else
    (List.range close.length).map
      (fun i => if i < period - 1 then none
                else some (atrFrom high low close period (i - (period - 1))))

/-! ## Data model (src/controller.py) -/

/-- Trade direction of a signal. -/
inductive Side
  | BUY
  | SELL
deriving DecidableEq, Repr

/-- The two order-filling policies tried by the coordinator:
`ORDER_FILLING_IOC` first, `ORDER_FILLING_FOK` on the retry. -/
inductive FillPolicy
  | IOC
  | FOK
deriving DecidableEq, Repr

/-- The selectable exit-price mode (the tp_sl_mode config entry). -/
inductive TpSlMode
  | ATR
  | Points
  | Pips
  | BalancePercent
deriving DecidableEq, Repr

/-- Snapshot of `mt5.account_info()._asdict()` as used by the controller. -/
structure AccountInfo where
  balance : ℚ
  equity : ℚ
deriving DecidableEq, Repr

/-- Snapshot of `mt5.symbol_info(symbol)` as used by the controller. -/
structure SymbolInfo where
  point : ℚ
  digits : ℤ
  trade_tick_value : ℚ
  volume_min : ℚ
  volume_max : ℚ
  volume_step : ℚ
deriving DecidableEq, Repr

/-- A tick quote from `mt5.symbol_info_tick`. -/
structure Tick where
  bid : ℚ
  ask : ℚ
deriving DecidableEq, Repr

/-- The fields of a generated trading signal dictionary consumed by the
execution path.  `confidence` and `atr_points` are optional because the
code reads them with `signal.get(key, default)`. -/
structure SignalData where
  side : Side
  confidence : Option ℚ
  atr_points : Option ℚ
  spread_points : Option ℚ
deriving DecidableEq, Repr

/-- The controller configuration entries consumed by sizing, exit-price
calculation and risk checking (`self.config`). -/
structure Config where
  risk_percent : ℚ
  max_trades_per_day : ℕ
  max_spread_points : ℚ
  tp_sl_mode : TpSlMode
  sl_points : ℚ
  tp_points : ℚ
  sl_pips : ℚ
  tp_pips : ℚ
  sl_percent : ℚ
  tp_percent : ℚ
deriving DecidableEq, Repr

/-- The configuration dictionary built in `BotController.__init__`. -/
def defaultConfig : Config :=
  ⟨1/2, 10, 30, TpSlMode.ATR, 75, 150, 15/2, 15, 1/2, 1⟩

/-- An order-send result from the venue (`mt5.order_send`). -/
structure OrderResult where
  retcode : ℕ
  comment : String
  price : ℚ
  order : ℕ
deriving DecidableEq, Repr

/-- The `mt5.TRADE_RETCODE_DONE` constant. -/
def TRADE_RETCODE_DONE : ℕ := 10009

/-- The `mt5.TRADE_RETCODE_INVALID_FILL` constant: the venue retcode for a fill-mode
mismatch. -/
def TRADE_RETCODE_INVALID_FILL : ℕ := 10030

/-! ## Position sizing (BotController.calculate_enhanced_lot_size) -/

/-- The volatility-adaptive stop distance in points used by the sizer
(controller.py lines 781-785): wider-volatility regimes take 0.8 of the
ATR, otherwise 1.2 of the ATR floored at 75 points. -/
def slPointsOf (atr_points : ℚ) : ℚ :=
  if 200 < atr_points then atr_points * (8/10)
  else max (atr_points * (12/10)) 75

/-- The Python built-in `round` on an exact rational: round half to even. -/
def pyRound (q : ℚ) : ℤ :=
  let f := ⌊q⌋
  let r := q - (f : ℚ)
  if r < 1/2 then f
  else if 1/2 < r then f + 1
  else if f % 2 = 0 then f else f + 1

/-- Embedding of `BotController.calculate_enhanced_lot_size`: risk-based sizing with the
volatility-adaptive stop distance, snapped to the volume step and clamped
to the instrument volume bounds.  Missing account or symbol metadata, or
a non-positive monetary stop, fall back to `0.01` lots. -/
def calculate_enhanced_lot_size (account : Option AccountInfo)
    (symbol : Option SymbolInfo) (cfg : Config) (signal : SignalData) : ℚ :=
  match account with
  | none => 1/100
  | some acc =>
    match symbol with
    | none => 1/100
    | some sym =>
      let risk_amount := acc.balance * (cfg.risk_percent / 100)
      let point := sym.point
      let atr_points := signal.atr_points.getD 100
      let sl_points := slPointsOf atr_points
      let tick_value := sym.trade_tick_value
      let sl_amount := sl_points * point * tick_value
      if sl_amount ≤ 0 then 1/100
      else
        let lot_size := risk_amount / sl_amount
        let lot_size := (pyRound (lot_size / sym.volume_step) : ℚ) * sym.volume_step
        max sym.volume_min (min lot_size sym.volume_max)

/-! ## Exit-price calculation (BotController.calculate_enhanced_tp_sl) -/

/-- The confidence-adaptive stop multiplier of the ATR exit mode
(controller.py lines 831-836): 1.0 above confidence 0.8, else 1.5. -/
def atrSlMultiplier (confidence : ℚ) : ℚ :=
  if 8/10 < confidence then 1 else 3/2

/-- The confidence-adaptive target multiplier of the ATR exit mode
(controller.py lines 831-836): 2.0 above confidence 0.8, else 1.5. -/
def atrTpMultiplier (confidence : ℚ) : ℚ :=
  if 8/10 < confidence then 2 else 3/2

/-- The stop distance in points of the ATR exit mode (controller.py line
838): the scaled ATR floored at a hardcoded 50 points. -/
def atrStopDistance (atr_points confidence : ℚ) : ℚ :=
  max (atr_points * atrSlMultiplier confidence) 50

/-- Embedding of `BotController.calculate_enhanced_tp_sl`: returns `(tp_price, sl_price)`.
`none` models the exception escape when `symbol_info` is absent (reading
`point` raises before the fallback path can bind its own reference to
`point`, so the exception propagates to the caller).  In `Balance%` mode a
missing account or a zero per-point value raises inside the branch and
lands in the 100-point fallback, where `point` is already bound. -/
def calculate_enhanced_tp_sl (cfg : Config) (signal : SignalData) (tick : Tick)
    (symbol : Option SymbolInfo) (account : Option AccountInfo) :
    Option (ℚ × ℚ) :=
  match symbol with
  | none => none
  | some sym =>
    let entry_price := match signal.side with
      | Side.BUY => tick.ask
      | Side.SELL => tick.bid
    let multiplier : ℚ := match signal.side with
      | Side.BUY => 1
      | Side.SELL => -1
    let point := sym.point
    let atr_points := signal.atr_points.getD 100
    match cfg.tp_sl_mode with
    | TpSlMode.ATR =>
      let confidence := signal.confidence.getD (1/2)
      let sl_distance := atrStopDistance atr_points confidence
      let tp_distance := sl_distance * atrTpMultiplier confidence
      some (entry_price + multiplier * tp_distance * point,
            entry_price - multiplier * sl_distance * point)
    | TpSlMode.Points =>
      some (entry_price + multiplier * cfg.tp_points * point,
            entry_price - multiplier * cfg.sl_points * point)
    | TpSlMode.Pips =>
      let pip_size : ℚ := if sym.digits = 3 ∨ sym.digits = 5 then 10 else 1
      some (entry_price + multiplier * (cfg.tp_pips * pip_size) * point,
            entry_price - multiplier * (cfg.sl_pips * pip_size) * point)
    | TpSlMode.BalancePercent =>
      match account with
      | none =>
        some (entry_price + multiplier * (100 * point) * 2,
              entry_price - multiplier * (100 * point))
      | some acc =>
        let tick_value := sym.trade_tick_value
        if point * tick_value = 0 then
          some (entry_price + multiplier * (100 * point) * 2,
                entry_price - multiplier * (100 * point))
        else
          let sl_amount := acc.balance * (cfg.sl_percent / 100)
          let tp_amount := acc.balance * (cfg.tp_percent / 100)
          some (entry_price + multiplier * (tp_amount / (point * tick_value)) * point,
                entry_price - multiplier * (sl_amount / (point * tick_value)) * point)

/-! ## Risk Gate (BotController.check_enhanced_risk_limits) -/

/-- The distinct loggable reasons with which the code risk gate rejects. -/
inductive RiskReason
  | dailyLimit
  | consecutiveLosses
  | drawdown
deriving DecidableEq, Repr

/-- Embedding of `BotController.check_enhanced_risk_limits`, returned as the rejection
reason (`none` = accept).  The code checks, in order and short-circuiting:
daily trade count against the configured maximum, consecutive losses
against the hardcoded 3, and, only when account info is present with a
positive balance, the percentage drawdown against the hardcoded 3%. -/
def check_enhanced_risk_limits (cfg : Config) (account : Option AccountInfo)
    (daily_trades consecutive_losses : ℕ) : Option RiskReason :=
  if cfg.max_trades_per_day ≤ daily_trades then some RiskReason.dailyLimit
  else if 3 ≤ consecutive_losses then some RiskReason.consecutiveLosses
  else
    match account with
    | some acc =>
      if 0 < acc.balance then
        if 3 < (acc.balance - acc.equity) / acc.balance * 100 then
          some RiskReason.drawdown
        else none
      else none
    | none => none

/-! ## Execution Coordinator (BotController.execute_enhanced_signal) -/

/-- Observable outcome of one call to `execute_enhanced_signal`: whether it
reported success, how many `order_send` attempts it made, the volume of
the submitted request (0 when nothing was submitted), how many audit rows
it appended to the trade CSV, the trade counters after the call, and the
venue failure reason it surfaced (retcode and comment), if any. -/
structure ExecResult where
  success : Bool
  attempts : ℕ
  volume : ℚ
  audits : ℕ
  daily_trades : ℕ
  consecutive_losses : ℕ
  surfaced_reason : Option (ℕ × String)
deriving DecidableEq, Repr

/-- Embedding of `BotController.execute_enhanced_signal`: abstains (no submission) when
MT5 is not connected, when the computed lot size is non-positive, when no
tick is available, or when the exit-price calculation raises (missing
symbol info).  Otherwise it submits with IOC filling, retries once with
FOK filling on any non-DONE retcode, and on success increments
`daily_trades` and writes exactly one CSV audit row.  On final failure it
surfaces the venue retcode and comment; `consecutive_losses` is never
touched. -/
def execute_enhanced_signal (connected : Bool) (cfg : Config)
    (signal : SignalData) (account : Option AccountInfo)
    (symbol : Option SymbolInfo) (tickq : Option Tick)
    (venue : FillPolicy → OrderResult)
    (daily_trades consecutive_losses : ℕ) : ExecResult :=
  if ¬ connected then
    ⟨false, 0, 0, 0, daily_trades, consecutive_losses, none⟩
  else
    let lot_size := calculate_enhanced_lot_size account symbol cfg signal
    if lot_size ≤ 0 then
      ⟨false, 0, 0, 0, daily_trades, consecutive_losses, none⟩
    else
      match tickq with
      | none => ⟨false, 0, 0, 0, daily_trades, consecutive_losses, none⟩
      | some tick =>
        match calculate_enhanced_tp_sl cfg signal tick symbol account with
        | none => ⟨false, 0, 0, 0, daily_trades, consecutive_losses, none⟩
        | some _ =>
          let r1 := venue FillPolicy.IOC
          if r1.retcode ≠ TRADE_RETCODE_DONE then
            let r2 := venue FillPolicy.FOK
            if r2.retcode = TRADE_RETCODE_DONE then
              ⟨true, 2, lot_size, 1, daily_trades + 1, consecutive_losses, none⟩
            else
              ⟨false, 2, lot_size, 0, daily_trades, consecutive_losses,
                some (r2.retcode, r2.comment)⟩
          else
            ⟨true, 1, lot_size, 1, daily_trades + 1, consecutive_losses, none⟩

/-- Outcome of `BotController.execute_manual_trade`: success flag and the
trade counters after the call. -/
structure ManualResult where
  success : Bool
  daily_trades : ℕ
  consecutive_losses : ℕ
deriving DecidableEq, Repr

/-- Embedding of `BotController.execute_manual_trade`: submits directly (no SL/TP, no
sizing), with the same IOC-then-FOK retry; on success increments
`daily_trades`; `consecutive_losses` is never touched. -/
def execute_manual_trade (connected : Bool) (tickq : Option Tick)
    (venue : FillPolicy → OrderResult)
    (daily_trades consecutive_losses : ℕ) : ManualResult :=
  if ¬ connected then ⟨false, daily_trades, consecutive_losses⟩
  else
    match tickq with
    | none => ⟨false, daily_trades, consecutive_losses⟩
    | some _ =>
      let r1 := venue FillPolicy.IOC
      if r1.retcode ≠ TRADE_RETCODE_DONE then
        let r2 := venue FillPolicy.FOK
        if r2.retcode = TRADE_RETCODE_DONE then
          ⟨true, daily_trades + 1, consecutive_losses⟩
        else ⟨false, daily_trades, consecutive_losses⟩
      else ⟨true, daily_trades + 1, consecutive_losses⟩

/-! ## Signal Gate (AnalysisWorker cooldown) -/

/-- The cooldown state of `AnalysisWorker`: the wall-clock time (seconds)
of the last signal emitted through the gate, and the configured cooldown. -/
structure WorkerGate where
  last_signal_time : ℚ
  signal_cooldown : ℚ
deriving DecidableEq, Repr

/-- The initial gate state of `AnalysisWorker.__init__`:
`last_signal_time = 0`, `signal_cooldown = 5` seconds. -/
def initWorkerGate : WorkerGate := ⟨0, 5⟩

/-- The cooldown check inside `AnalysisWorker.run`: a signal is emitted
(and the timestamp recorded) exactly when the elapsed time since the last
emitted signal strictly exceeds the cooldown; otherwise the signal is
silently not emitted and the state is unchanged. -/
def gateDecide (g : WorkerGate) (now : ℚ) : Bool × WorkerGate :=
  if g.signal_cooldown < now - g.last_signal_time then
    (true, ⟨now, g.signal_cooldown⟩)
  else (false, g)

/-! ## Reachable trade counters (for the consecutive-losses invariant) -/

/-- The pair of mutable trade counters of `BotController`. -/
structure RiskCounters where
  daily_trades : ℕ
  consecutive_losses : ℕ
deriving DecidableEq, Repr

/-- The counters set by `BotController.__init__`. -/
def initCounters : RiskCounters := ⟨0, 0⟩

/-- One controller operation that can touch the trade counters: automatic
signal execution or a manual trade (no other method of the class writes
either counter). -/
inductive CtrlStep : RiskCounters → RiskCounters → Prop
  | execSignal (connected : Bool) (cfg : Config) (signal : SignalData)
      (account : Option AccountInfo) (symbol : Option SymbolInfo)
      (tickq : Option Tick) (venue : FillPolicy → OrderResult)
      (s : RiskCounters) :
      CtrlStep s
        ⟨(execute_enhanced_signal connected cfg signal account symbol tickq
            venue s.daily_trades s.consecutive_losses).daily_trades,
         (execute_enhanced_signal connected cfg signal account symbol tickq
            venue s.daily_trades s.consecutive_losses).consecutive_losses⟩
  | manualTrade (connected : Bool) (tickq : Option Tick)
      (venue : FillPolicy → OrderResult) (s : RiskCounters) :
      CtrlStep s
        ⟨(execute_manual_trade connected tickq venue s.daily_trades
            s.consecutive_losses).daily_trades,
         (execute_manual_trade connected tickq venue s.daily_trades
            s.consecutive_losses).consecutive_losses⟩

/-- A counter state reachable from the freshly initialised controller by
any sequence of counter-touching operations. -/
def ReachableCounters (s : RiskCounters) : Prop :=
  Relation.ReflTransGen CtrlStep initCounters s

/-! ## The Risk Gate as the specification words it (for refinement) -/

/-- The distinct rejection reasons named by the specification for its
six-check risk gate. -/
inductive SpecCheck
  | dailyLimit
  | spreadTooWide
  | accountUnavailable
  | consecutiveLosses
  | outsideSession
  | drawdown
deriving DecidableEq, Repr

/-- The inputs the specification says the risk gate consults. -/
structure SpecRiskInput where
  daily_trade_count : ℕ
  max_trades_per_day : ℕ
  spread_points : ℚ
  max_spread_points : ℚ
  account : Option AccountInfo
  consecutive_losses : ℕ
  max_consecutive : ℕ
  in_session : Bool
  drawdown_ceiling : ℚ
deriving DecidableEq, Repr

/-- Modelled from the claim wording (not from the source): the six-check
risk gate of spec section 4.4, evaluated in the stated fixed order with
short-circuit on first failure: daily count, spread, account
balance/equity positive and obtainable, consecutive losses, session,
drawdown.  Used only to compare the specified gate with the implemented
`check_enhanced_risk_limits`. -/
def specRiskGate (inp : SpecRiskInput) : Option SpecCheck :=
  if ¬ (inp.daily_trade_count < inp.max_trades_per_day) then
    some SpecCheck.dailyLimit
  else if ¬ (inp.spread_points ≤ inp.max_spread_points) then
    some SpecCheck.spreadTooWide
  else
    match inp.account with
    | none => some SpecCheck.accountUnavailable
    | some a =>
      if ¬ (0 < a.balance ∧ 0 < a.equity) then
        some SpecCheck.accountUnavailable
      else if ¬ (inp.consecutive_losses < inp.max_consecutive) then
        some SpecCheck.consecutiveLosses
      else if ¬ inp.in_session then some SpecCheck.outsideSession
      else if ¬ ((a.balance - a.equity) / a.balance < inp.drawdown_ceiling) then
        some SpecCheck.drawdown
      else none

/-! ## Helper lemmas -/

theorem eps_pos : 0 < eps := by norm_num [eps]

theorem mul_length_le_sum (l : List ℚ) (c : ℚ) (h : ∀ x ∈ l, c ≤ x) :
    c * l.length ≤ l.sum := by
  induction l with
  | nil => simp
  | cons a t ih =>
    have ha := h a (by simp)
    have ht := ih (fun x hx => h x (by simp [hx]))
    simp only [List.sum_cons, List.length_cons]
    push_cast
    linarith

theorem getD_nonneg (xs : List ℚ) (h : ∀ x ∈ xs, 0 ≤ x) (n : ℕ) :
    0 ≤ xs.getD n 0 := by
  by_cases hn : n < xs.length
  · rw [xs.getD_eq_getElem 0 hn]
    exact h _ (xs.getElem_mem hn)
  · rw [xs.getD_eq_default 0 (le_of_not_lt hn)]

theorem getD_lower (xs : List ℚ) (c : ℚ) (h : ∀ x ∈ xs, c ≤ x) (n : ℕ)
    (hn : n < xs.length) : c ≤ xs.getD n 0 := by
  rw [xs.getD_eq_getElem 0 hn]
  exact h _ (xs.getElem_mem hn)

theorem getD_zero (xs : List ℚ) (h : ∀ x ∈ xs, x = 0) (n : ℕ) :
    xs.getD n 0 = 0 := by
  by_cases hn : n < xs.length
  · rw [xs.getD_eq_getElem 0 hn]
    exact h _ (xs.getElem_mem hn)
  · rw [xs.getD_eq_default 0 (le_of_not_lt hn)]

theorem wilderAvg_nonneg (xs : List ℚ) (period : ℕ) (hp : 1 ≤ period)
    (h : ∀ x ∈ xs, 0 ≤ x) (k : ℕ) : 0 ≤ wilderAvg xs period k := by
  induction k with
  | zero =>
    apply div_nonneg _ (by positivity)
    have := mul_length_le_sum (xs.take period) 0
      (fun x hx => h x (xs.take_subset period hx))
    simpa using this
  | succ k ih =>
    unfold wilderAvg wilderStep
    have hp' : (1 : ℚ) ≤ (period : ℚ) := by exact_mod_cast hp
    apply div_nonneg _ (by positivity)
    have hx := getD_nonneg xs h (period + k)
    have : 0 ≤ wilderAvg xs period k * ((period : ℚ) - 1) :=
      mul_nonneg ih (by linarith)
    linarith

theorem wilderAvg_zero (xs : List ℚ) (period : ℕ)
    (h : ∀ x ∈ xs, x = 0) (k : ℕ) : wilderAvg xs period k = 0 := by
  induction k with
  | zero =>
    have : (xs.take period).sum = 0 :=
      List.sum_eq_zero (fun x hx => h x (xs.take_subset period hx))
    simp [wilderAvg, this]
  | succ k ih =>
    unfold wilderAvg wilderStep
    rw [ih, getD_zero xs h]
    simp

theorem wilderAvg_lower (xs : List ℚ) (period : ℕ) (c : ℚ) (hp : 1 ≤ period)
    (hlen : period ≤ xs.length) (h : ∀ x ∈ xs, c ≤ x) (k : ℕ)
    (hk : period + k ≤ xs.length) : c ≤ wilderAvg xs period k := by
  have hp0 : (0 : ℚ) < (period : ℚ) := by exact_mod_cast hp
  induction k with
  | zero =>
    unfold wilderAvg
    rw [le_div_iff₀ hp0]
    have := mul_length_le_sum (xs.take period) c
      (fun x hx => h x (xs.take_subset period hx))
    rwa [List.length_take, min_eq_left hlen] at this
  | succ k ih =>
    unfold wilderAvg wilderStep
    have hk' : period + k ≤ xs.length := by omega
    have havg := ih hk'
    have hx := getD_lower xs c h (period + k) (by omega)
    have hp1 : (0 : ℚ) ≤ (period : ℚ) - 1 := by
      have : (1 : ℚ) ≤ (period : ℚ) := by exact_mod_cast hp
      linarith
    rw [le_div_iff₀ hp0]
    nlinarith

theorem deltas_length (data : List ℚ) : (deltas data).length = data.length - 1 := by
  induction data with
  | nil => simp [deltas]
  | cons a t ih =>
    cases t with
    | nil => simp [deltas]
    | cons b r =>
      rw [deltas]
      simp only [List.length_cons] at ih ⊢
      omega

theorem deltas_pos (data : List ℚ) (h : data.Chain' (· < ·)) :
    ∀ d ∈ deltas data, 0 < d := by
  induction data with
  | nil => simp [deltas]
  | cons a t ih =>
    cases t with
    | nil => simp [deltas]
    | cons b r =>
      rw [List.chain'_cons] at h
      intro d hd
      rw [deltas, List.mem_cons] at hd
      rcases hd with rfl | hd
      · linarith [h.1]
      · exact ih h.2 d hd

theorem deltas_le_neg (data : List ℚ) (δ : ℚ)
    (h : data.Chain' (fun a b => b ≤ a - δ)) :
    ∀ d ∈ deltas data, d ≤ -δ := by
  induction data with
  | nil => simp [deltas]
  | cons a t ih =>
    cases t with
    | nil => simp [deltas]
    | cons b r =>
      rw [List.chain'_cons] at h
      intro d hd
      rw [deltas, List.mem_cons] at hd
      rcases hd with rfl | hd
      · linarith [h.1]
      · exact ih h.2 d hd

theorem gains_nonneg (data : List ℚ) : ∀ x ∈ gains data, 0 ≤ x := by
  intro x hx
  rw [gains, List.mem_map] at hx
  obtain ⟨d, _, rfl⟩ := hx
  split <;> [linarith; rfl]

theorem losses_nonneg (data : List ℚ) : ∀ x ∈ losses data, 0 ≤ x := by
  intro x hx
  rw [losses, List.mem_map] at hx
  obtain ⟨d, _, rfl⟩ := hx
  split <;> [linarith; rfl]

theorem losses_zero_of_increasing (data : List ℚ) (h : data.Chain' (· < ·)) :
    ∀ x ∈ losses data, x = 0 := by
  intro x hx
  rw [losses, List.mem_map] at hx
  obtain ⟨d, hd, rfl⟩ := hx
  have := deltas_pos data h d hd
  rw [if_neg (by linarith)]

theorem gains_zero_of_decreasing (data : List ℚ) (δ : ℚ) (hδ : 0 < δ)
    (h : data.Chain' (fun a b => b ≤ a - δ)) :
    ∀ x ∈ gains data, x = 0 := by
  intro x hx
  rw [gains, List.mem_map] at hx
  obtain ⟨d, hd, rfl⟩ := hx
  have := deltas_le_neg data δ h d hd
  rw [if_neg (by linarith)]

theorem losses_lower_of_decreasing (data : List ℚ) (δ : ℚ) (hδ : 0 < δ)
    (h : data.Chain' (fun a b => b ≤ a - δ)) :
    ∀ x ∈ losses data, δ ≤ x := by
  intro x hx
  rw [losses, List.mem_map] at hx
  obtain ⟨d, hd, rfl⟩ := hx
  have := deltas_le_neg data δ h d hd
  rw [if_pos (by linarith)]
  linarith

/-! ## Claim C4: short-series indicator fallbacks -/

/-- C4: for every price series strictly shorter than the configured period,
EMA yields no value at every index, RSI yields the neutral fallback 50 at
every index, and ATR yields its defined fallback 0.01 at every index; the
computations are total, so no error is ever raised. -/
theorem C4_short_series_fallback (high low close : List ℚ) (period : ℕ)
    (h : close.length < period) :
    ema close period = List.replicate close.length none
  ∧ rsi close period = List.replicate close.length (some 50)
  ∧ atr high low close period = List.replicate close.length (some (1/100)) := by
  refine ⟨?_, ?_, ?_⟩
  · rw [ema, if_pos h]
  · rw [rsi, if_pos (Nat.lt_succ_of_lt h)]
  · rw [atr]
    split_ifs with h1 h2
    · rfl
    · rfl
    · exact absurd (Nat.lt_succ_of_lt h) h2

/-- C4 witness: a two-bar series with period 3 takes every fallback. -/
theorem C4_short_series_fallback_witness :
    ([(1:ℚ), 2].length < 3)
  ∧ (ema [(1:ℚ), 2] 3 = List.replicate [(1:ℚ), 2].length none
     ∧ rsi [(1:ℚ), 2] 3 = List.replicate [(1:ℚ), 2].length (some 50)
     ∧ atr [(5:ℚ)] [(0:ℚ), 1, 2] [(1:ℚ), 2] 3
         = List.replicate [(1:ℚ), 2].length (some (1/100))) :=
  ⟨by decide, C4_short_series_fallback [(5:ℚ)] [(0:ℚ), 1, 2] [(1:ℚ), 2] 3 (by decide)⟩

/-! ## Claim C3: signal-gate cooldown -/

/-- C3 counterexample: an intent arriving exactly at the cooldown boundary
(elapsed time equal to the 5-second cooldown, with the initial gate state)
is dropped, not passed through. -/
theorem C3_boundary_counterexample :
    (5 : ℚ) - initWorkerGate.last_signal_time = initWorkerGate.signal_cooldown
  ∧ gateDecide initWorkerGate 5 = (false, initWorkerGate) := by
  constructor
  · norm_num [initWorkerGate]
  · rw [gateDecide]
    norm_num [initWorkerGate]

/-- C3 amended: an intent whose elapsed time since the last emitted intent
is at most the cooldown (including exactly at the boundary) is silently
dropped with the gate state unchanged; an intent strictly after the
boundary is passed through and the timestamp recorded. -/
theorem C3_cooldown_gate (g : WorkerGate) (now : ℚ) :
    (now - g.last_signal_time ≤ g.signal_cooldown →
      gateDecide g now = (false, g))
  ∧ (g.signal_cooldown < now - g.last_signal_time →
      gateDecide g now = (true, ⟨now, g.signal_cooldown⟩)) := by
  constructor
  · intro h
    rw [gateDecide, if_neg (not_lt.mpr h)]
  · intro h
    rw [gateDecide, if_pos h]

/-- C3 witness: with the initial state, an intent 3 seconds in is dropped
and an intent 6 seconds in is passed through. -/
theorem C3_cooldown_gate_witness :
    gateDecide initWorkerGate 3 = (false, initWorkerGate)
  ∧ gateDecide initWorkerGate 6 = (true, ⟨6, 5⟩) :=
  ⟨(C3_cooldown_gate initWorkerGate 3).1 (by norm_num [initWorkerGate]),
   (C3_cooldown_gate initWorkerGate 6).2 (by norm_num [initWorkerGate])⟩

/-! ## Claim C1: ATR exit mode stop and target -/

/-- C1 counterexample: with the default config (ATR mode), a BUY signal at
ask 2000.00 on a 0.01-point instrument, ATR of 100 points and a confidence
of 0.5 (the regime whose stop multiplier is the claimed 1.5), the code
computes stop 1998.50 but target 2002.25, not the claimed 2003.00: the
target multiplier paired with a 1.5 stop multiplier is 1.5, never 2.0. -/
theorem C1_atr_target_counterexample :
    calculate_enhanced_tp_sl defaultConfig
        ⟨Side.BUY, some (1/2), some 100, some 10⟩ ⟨1999, 2000⟩
        (some ⟨1/100, 2, 1, 1/100, 100, 1/100⟩) none
      = some (8009/4, 3997/2)
  ∧ (8009/4 : ℚ) ≠ 2003 ∧ (3997/2 : ℚ) = 19985/10 := by
  refine ⟨?_, by norm_num, by norm_num⟩
  norm_num [calculate_enhanced_tp_sl, atrStopDistance, atrSlMultiplier,
    atrTpMultiplier, defaultConfig]

/-- C1 amended: in ATR exit mode the stop distance is
`max(ATR_points * sl_multiplier, 50)` — the floor is the hardcoded 50
points — and the target distance is `stop_distance * tp_multiplier`,
where the multiplier pair is (1.0, 2.0) for confidence above 0.8 and
(1.5, 1.5) otherwise; the stop and target sit on the side of the entry
price fixed by the direction. -/
theorem C1_atr_exit_amended (cfg : Config) (signal : SignalData) (tick : Tick)
    (sym : SymbolInfo) (account : Option AccountInfo)
    (hmode : cfg.tp_sl_mode = TpSlMode.ATR) :
    (signal.side = Side.BUY →
      calculate_enhanced_tp_sl cfg signal tick (some sym) account
        = some (tick.ask +
                  atrStopDistance (signal.atr_points.getD 100)
                      (signal.confidence.getD (1/2))
                    * atrTpMultiplier (signal.confidence.getD (1/2)) * sym.point,
                tick.ask -
                  atrStopDistance (signal.atr_points.getD 100)
                      (signal.confidence.getD (1/2)) * sym.point))
  ∧ (signal.side = Side.SELL →
      calculate_enhanced_tp_sl cfg signal tick (some sym) account
        = some (tick.bid -
                  atrStopDistance (signal.atr_points.getD 100)
                      (signal.confidence.getD (1/2))
                    * atrTpMultiplier (signal.confidence.getD (1/2)) * sym.point,
                tick.bid +
                  atrStopDistance (signal.atr_points.getD 100)
                      (signal.confidence.getD (1/2)) * sym.point)) := by
  constructor <;> intro hside <;>
    simp only [calculate_enhanced_tp_sl, hmode, hside] <;> ring_nf

/-- C1 witness: the amended formula evaluated for a concrete BUY signal in
ATR mode. -/
theorem C1_atr_exit_amended_witness :
    calculate_enhanced_tp_sl defaultConfig
        ⟨Side.BUY, some (1/2), some 100, some 10⟩ ⟨1999, 2000⟩
        (some ⟨1/100, 2, 1, 1/100, 100, 1/100⟩) none
      = some ((2000 : ℚ) + atrStopDistance 100 (1/2) * atrTpMultiplier (1/2) * (1/100),
              (2000 : ℚ) - atrStopDistance 100 (1/2) * (1/100)) :=
  (C1_atr_exit_amended defaultConfig
      ⟨Side.BUY, some (1/2), some 100, some 10⟩ ⟨1999, 2000⟩
      ⟨1/100, 2, 1, 1/100, 100, 1/100⟩ none rfl).1 rfl

/-! ## Claim C2: risk-gate checks -/

/-- C2 counterexample: with the default config, no account information,
zero spread, inside the session and zero counters, the specified
six-check gate rejects (balance/equity unobtainable is its third check),
but the implemented gate accepts: the implementation has no spread,
session, or account-obtainable check. -/
theorem C2_risk_gate_counterexample :
    check_enhanced_risk_limits defaultConfig none 0 0 = none
  ∧ specRiskGate ⟨0, 10, 0, 30, none, 0, 3, true, 3/100⟩
      = some SpecCheck.accountUnavailable := by
  constructor
  · rw [check_enhanced_risk_limits]
    norm_num [defaultConfig]
  · rw [specRiskGate]
    norm_num

/-- C2 amended: the implemented risk gate evaluates exactly three checks,
in this fixed order and short-circuiting on the first failure, each with
its own distinct reason: (1) daily trade count below the configured
maximum, (2) consecutive losses below the hardcoded 3, (3) when account
info is present with a positive balance, percentage drawdown at most the
hardcoded 3.  Spread and session are filtered earlier by the strategy
evaluator, and missing account data does not cause rejection.  The gate
is a pure function of its current inputs (nothing cached). -/
theorem C2_risk_gate_amended (cfg : Config) (account : Option AccountInfo)
    (dt cl : ℕ) :
    (check_enhanced_risk_limits cfg account dt cl = some RiskReason.dailyLimit
       ↔ cfg.max_trades_per_day ≤ dt)
  ∧ (check_enhanced_risk_limits cfg account dt cl
       = some RiskReason.consecutiveLosses
       ↔ dt < cfg.max_trades_per_day ∧ 3 ≤ cl)
  ∧ (check_enhanced_risk_limits cfg account dt cl = some RiskReason.drawdown
       ↔ dt < cfg.max_trades_per_day ∧ cl < 3 ∧
         ∃ acc, account = some acc ∧ 0 < acc.balance ∧
           3 < (acc.balance - acc.equity) / acc.balance * 100)
  ∧ (check_enhanced_risk_limits cfg account dt cl = none
       ↔ dt < cfg.max_trades_per_day ∧ cl < 3 ∧
         ∀ acc, account = some acc → 0 < acc.balance →
           (acc.balance - acc.equity) / acc.balance * 100 ≤ 3) := by
  rcases account with _ | acc <;> rw [check_enhanced_risk_limits]
  · split_ifs with h1 h2 <;> simp_all
  · split_ifs with h1 h2 h3 h4 <;> simp_all

/-- C2 witness: the amended characterization applied to the default config
with the daily limit already reached. -/
theorem C2_risk_gate_amended_witness :
    check_enhanced_risk_limits defaultConfig none 10 0
      = some RiskReason.dailyLimit :=
  (C2_risk_gate_amended defaultConfig none 10 0).1.mpr (by norm_num [defaultConfig])

/-! ## Claim C6: position-sizer volume bounds and step snapping -/

/-- C6 counterexample: with balance 10000, the default 0.5% risk, an ATR of
100 points and an instrument whose volume bounds are [0.01, 0.015] with
step 0.01, the sizer clamps the snapped lot to the bound 0.015, which is
not an integer multiple of the 0.01 step: the clamp bounds themselves are
not re-snapped. -/
theorem C6_lot_step_counterexample :
    calculate_enhanced_lot_size (some ⟨10000, 10000⟩)
        (some ⟨1/100, 2, 1, 1/100, 3/200, 1/100⟩) defaultConfig
        ⟨Side.BUY, some (8/10), some 100, some 10⟩ = 3/200
  ∧ ¬ ∃ k : ℤ, (3/200 : ℚ) = (k : ℚ) * (1/100) := by
  constructor
  · rw [calculate_enhanced_lot_size]
    norm_num [slPointsOf, pyRound, defaultConfig]
  · rintro ⟨k, hk⟩
    have h2 : (3 : ℚ) = 2 * (k : ℚ) := by field_simp at hk; linarith
    have h3 : (3 : ℤ) = 2 * k := by exact_mod_cast h2
    omega

/-- C6 amended: whenever account and instrument metadata are present, the
per-point monetary value is positive, the volume step is positive, and
the volume bounds are ordered and are themselves integer multiples of the
step, the returned volume lies inside [volume_min, volume_max] and is an
integer multiple of volume_step. -/
theorem C6_lot_size_amended (acc : AccountInfo) (sym : SymbolInfo)
    (cfg : Config) (signal : SignalData)
    (hpt : 0 < sym.point * sym.trade_tick_value)
    (_hstep : 0 < sym.volume_step)
    (hbounds : sym.volume_min ≤ sym.volume_max)
    (hmin : ∃ m : ℤ, sym.volume_min = (m : ℚ) * sym.volume_step)
    (hmax : ∃ m : ℤ, sym.volume_max = (m : ℚ) * sym.volume_step) :
    sym.volume_min ≤ calculate_enhanced_lot_size (some acc) (some sym) cfg signal
  ∧ calculate_enhanced_lot_size (some acc) (some sym) cfg signal ≤ sym.volume_max
  ∧ ∃ k : ℤ, calculate_enhanced_lot_size (some acc) (some sym) cfg signal
      = (k : ℚ) * sym.volume_step := by
  have hslp : 0 < slPointsOf (signal.atr_points.getD 100) := by
    rw [slPointsOf]
    split_ifs with h
    · linarith
    · exact lt_of_lt_of_le (by norm_num) (le_max_right _ _)
  have hamt : 0 < slPointsOf (signal.atr_points.getD 100) * sym.point
      * sym.trade_tick_value := by
    rw [mul_assoc]
    exact mul_pos hslp hpt
  rw [calculate_enhanced_lot_size]
  simp only [if_neg (not_le.mpr hamt)]
  set q : ℚ :=
    (pyRound (acc.balance * (cfg.risk_percent / 100)
        / (slPointsOf (signal.atr_points.getD 100) * sym.point
            * sym.trade_tick_value) / sym.volume_step) : ℚ)
      * sym.volume_step with hq
  refine ⟨le_max_left _ _, max_le hbounds (min_le_right _ _), ?_⟩
  obtain ⟨mn, hmn⟩ := hmin
  obtain ⟨mx, hmx⟩ := hmax
  rcases max_choice sym.volume_min (min q sym.volume_max) with h | h
  · exact ⟨mn, by rw [h, hmn]⟩
  · rcases min_choice q sym.volume_max with h2 | h2
    · refine ⟨pyRound (acc.balance * (cfg.risk_percent / 100)
        / (slPointsOf (signal.atr_points.getD 100) * sym.point
            * sym.trade_tick_value) / sym.volume_step), ?_⟩
      rw [h, h2, hq]
    · exact ⟨mx, by rw [h, h2, hmx]⟩

/-- C6 witness: the amended bounds evaluated on a concrete well-formed
instrument. -/
theorem C6_lot_size_amended_witness :
    (0 < (1/100 : ℚ) * 1) ∧ (0 < (1/100 : ℚ)) ∧ ((1/100 : ℚ) ≤ 100)
  ∧ ((1/100 : ℚ) ≤ calculate_enhanced_lot_size (some ⟨10000, 10000⟩)
        (some ⟨1/100, 2, 1, 1/100, 100, 1/100⟩) defaultConfig
        ⟨Side.BUY, some (8/10), some 100, some 10⟩
     ∧ calculate_enhanced_lot_size (some ⟨10000, 10000⟩)
        (some ⟨1/100, 2, 1, 1/100, 100, 1/100⟩) defaultConfig
        ⟨Side.BUY, some (8/10), some 100, some 10⟩ ≤ 100
     ∧ ∃ k : ℤ, calculate_enhanced_lot_size (some ⟨10000, 10000⟩)
        (some ⟨1/100, 2, 1, 1/100, 100, 1/100⟩) defaultConfig
        ⟨Side.BUY, some (8/10), some 100, some 10⟩ = (k : ℚ) * (1/100)) :=
  ⟨by norm_num, by norm_num, by norm_num,
   C6_lot_size_amended ⟨10000, 10000⟩ ⟨1/100, 2, 1, 1/100, 100, 1/100⟩
     defaultConfig ⟨Side.BUY, some (8/10), some 100, some 10⟩
     (by norm_num) (by norm_num) (by norm_num)
     ⟨1, by norm_num⟩ ⟨10000, by norm_num⟩⟩

/-! ## Execution helper lemmas -/

theorem calculate_enhanced_tp_sl_isSome (cfg : Config) (signal : SignalData)
    (tick : Tick) (sym : SymbolInfo) (account : Option AccountInfo) :
    ∃ p, calculate_enhanced_tp_sl cfg signal tick (some sym) account = some p := by
  rw [calculate_enhanced_tp_sl.eq_def]
  cases cfg.tp_sl_mode <;> rcases account with _ | acc <;>
    simp only [] <;> (try split_ifs) <;> exact ⟨_, rfl⟩

theorem execute_attempts_le_two (connected : Bool) (cfg : Config)
    (signal : SignalData) (account : Option AccountInfo)
    (symbol : Option SymbolInfo) (tickq : Option Tick)
    (venue : FillPolicy → OrderResult) (dt cl : ℕ) :
    (execute_enhanced_signal connected cfg signal account symbol tickq venue
        dt cl).attempts ≤ 2 := by
  rw [execute_enhanced_signal.eq_def]
  split_ifs <;> try simp
  rcases tickq with _ | tick
  · simp
  · simp only []
    rcases calculate_enhanced_tp_sl cfg signal tick symbol account with _ | p
    · simp
    · split_ifs <;> simp

/-! ## Claim C5: fill-mode retry with a single audit record -/

/-- C5: if the venue rejects the IOC submission with the invalid-fill
retcode and accepts the FOK retry, the execution reports success,
writes exactly one CSV audit record, and makes at most 3 (in fact 2)
submission attempts. -/
theorem C5_fill_retry_single_audit (cfg : Config) (signal : SignalData)
    (account : Option AccountInfo) (sym : SymbolInfo) (tick : Tick)
    (venue : FillPolicy → OrderResult) (dt cl : ℕ)
    (hlot : 0 < calculate_enhanced_lot_size account (some sym) cfg signal)
    (h1 : (venue FillPolicy.IOC).retcode = TRADE_RETCODE_INVALID_FILL)
    (h2 : (venue FillPolicy.FOK).retcode = TRADE_RETCODE_DONE) :
    (execute_enhanced_signal true cfg signal account (some sym) (some tick)
        venue dt cl).success = true
  ∧ (execute_enhanced_signal true cfg signal account (some sym) (some tick)
        venue dt cl).audits = 1
  ∧ (execute_enhanced_signal true cfg signal account (some sym) (some tick)
        venue dt cl).attempts ≤ 3 := by
  obtain ⟨p, hp⟩ := calculate_enhanced_tp_sl_isSome cfg signal tick sym account
  have hne : (venue FillPolicy.IOC).retcode ≠ TRADE_RETCODE_DONE := by
    rw [h1, TRADE_RETCODE_INVALID_FILL, TRADE_RETCODE_DONE]
    omega
  rw [execute_enhanced_signal.eq_def]
  simp only [Bool.not_true, if_neg (not_le.mpr hlot), hp]
  rw [if_neg (by simp), if_pos hne, if_pos h2]
  exact ⟨rfl, rfl, by norm_num⟩

/-- C5 witness: a concrete venue stub that rejects IOC with an
invalid-fill retcode and accepts FOK. -/
theorem C5_fill_retry_single_audit_witness :
    (0 < calculate_enhanced_lot_size none
        (some ⟨1/100, 2, 1, 1/100, 100, 1/100⟩) defaultConfig
        ⟨Side.BUY, some (8/10), some 100, some 10⟩)
  ∧ ((execute_enhanced_signal true defaultConfig
        ⟨Side.BUY, some (8/10), some 100, some 10⟩ none
        (some ⟨1/100, 2, 1, 1/100, 100, 1/100⟩) (some ⟨1999, 2000⟩)
        (fun p => match p with
          | FillPolicy.IOC => ⟨10030, "Invalid fill", 0, 0⟩
          | FillPolicy.FOK => ⟨10009, "done", 2000, 7⟩) 0 0).success = true
     ∧ (execute_enhanced_signal true defaultConfig
        ⟨Side.BUY, some (8/10), some 100, some 10⟩ none
        (some ⟨1/100, 2, 1, 1/100, 100, 1/100⟩) (some ⟨1999, 2000⟩)
        (fun p => match p with
          | FillPolicy.IOC => ⟨10030, "Invalid fill", 0, 0⟩
          | FillPolicy.FOK => ⟨10009, "done", 2000, 7⟩) 0 0).audits = 1
     ∧ (execute_enhanced_signal true defaultConfig
        ⟨Side.BUY, some (8/10), some 100, some 10⟩ none
        (some ⟨1/100, 2, 1, 1/100, 100, 1/100⟩) (some ⟨1999, 2000⟩)
        (fun p => match p with
          | FillPolicy.IOC => ⟨10030, "Invalid fill", 0, 0⟩
          | FillPolicy.FOK => ⟨10009, "done", 2000, 7⟩) 0 0).attempts ≤ 3) :=
  ⟨by rw [calculate_enhanced_lot_size]; norm_num,
   C5_fill_retry_single_audit defaultConfig
     ⟨Side.BUY, some (8/10), some 100, some 10⟩ none
     ⟨1/100, 2, 1, 1/100, 100, 1/100⟩ ⟨1999, 2000⟩
     (fun p => match p with
       | FillPolicy.IOC => ⟨10030, "Invalid fill", 0, 0⟩
       | FillPolicy.FOK => ⟨10009, "done", 2000, 7⟩) 0 0
     (by rw [calculate_enhanced_lot_size]; norm_num) rfl rfl⟩

/-! ## Claim C8: exhausted retries leave the counters untouched -/

/-- C8: when both the IOC submission and the FOK retry are rejected, the
execution reports failure, surfaces the venue retcode and comment of the
final attempt, writes no audit record, and leaves both daily_trades and
consecutive_losses at their pre-submission values. -/
theorem C8_rejected_preserves_counters (cfg : Config) (signal : SignalData)
    (account : Option AccountInfo) (sym : SymbolInfo) (tick : Tick)
    (venue : FillPolicy → OrderResult) (dt cl : ℕ)
    (hlot : 0 < calculate_enhanced_lot_size account (some sym) cfg signal)
    (h1 : (venue FillPolicy.IOC).retcode ≠ TRADE_RETCODE_DONE)
    (h2 : (venue FillPolicy.FOK).retcode ≠ TRADE_RETCODE_DONE) :
    (execute_enhanced_signal true cfg signal account (some sym) (some tick)
        venue dt cl).success = false
  ∧ (execute_enhanced_signal true cfg signal account (some sym) (some tick)
        venue dt cl).daily_trades = dt
  ∧ (execute_enhanced_signal true cfg signal account (some sym) (some tick)
        venue dt cl).consecutive_losses = cl
  ∧ (execute_enhanced_signal true cfg signal account (some sym) (some tick)
        venue dt cl).audits = 0
  ∧ (execute_enhanced_signal true cfg signal account (some sym) (some tick)
        venue dt cl).surfaced_reason
      = some ((venue FillPolicy.FOK).retcode, (venue FillPolicy.FOK).comment) := by
  obtain ⟨p, hp⟩ := calculate_enhanced_tp_sl_isSome cfg signal tick sym account
  rw [execute_enhanced_signal.eq_def]
  simp only [Bool.not_true, if_neg (not_le.mpr hlot), hp]
  rw [if_neg (by simp), if_pos h1, if_neg h2]
  exact ⟨rfl, rfl, rfl, rfl, rfl⟩

/-- C8 witness: a concrete venue stub that rejects both attempts. -/
theorem C8_rejected_preserves_counters_witness :
    ((execute_enhanced_signal true defaultConfig
        ⟨Side.SELL, some (9/10), some 100, some 10⟩ none
        (some ⟨1/100, 2, 1, 1/100, 100, 1/100⟩) (some ⟨1999, 2000⟩)
        (fun _ => ⟨10030, "No fill", 0, 0⟩) 4 2).success = false
     ∧ (execute_enhanced_signal true defaultConfig
        ⟨Side.SELL, some (9/10), some 100, some 10⟩ none
        (some ⟨1/100, 2, 1, 1/100, 100, 1/100⟩) (some ⟨1999, 2000⟩)
        (fun _ => ⟨10030, "No fill", 0, 0⟩) 4 2).daily_trades = 4
     ∧ (execute_enhanced_signal true defaultConfig
        ⟨Side.SELL, some (9/10), some 100, some 10⟩ none
        (some ⟨1/100, 2, 1, 1/100, 100, 1/100⟩) (some ⟨1999, 2000⟩)
        (fun _ => ⟨10030, "No fill", 0, 0⟩) 4 2).consecutive_losses = 2
     ∧ (execute_enhanced_signal true defaultConfig
        ⟨Side.SELL, some (9/10), some 100, some 10⟩ none
        (some ⟨1/100, 2, 1, 1/100, 100, 1/100⟩) (some ⟨1999, 2000⟩)
        (fun _ => ⟨10030, "No fill", 0, 0⟩) 4 2).audits = 0
     ∧ (execute_enhanced_signal true defaultConfig
        ⟨Side.SELL, some (9/10), some 100, some 10⟩ none
        (some ⟨1/100, 2, 1, 1/100, 100, 1/100⟩) (some ⟨1999, 2000⟩)
        (fun _ => ⟨10030, "No fill", 0, 0⟩) 4 2).surfaced_reason
        = some (10030, "No fill")) :=
  C8_rejected_preserves_counters defaultConfig
    ⟨Side.SELL, some (9/10), some 100, some 10⟩ none
    ⟨1/100, 2, 1, 1/100, 100, 1/100⟩ ⟨1999, 2000⟩
    (fun _ => ⟨10030, "No fill", 0, 0⟩) 4 2
    (by rw [calculate_enhanced_lot_size]; norm_num)
    (by simp [TRADE_RETCODE_DONE]) (by simp [TRADE_RETCODE_DONE])

/-! ## Claim C9: abstention on unavailable data -/

/-- C9 counterexample: with account info unavailable (but symbol metadata
and a tick present, and a venue that accepts), the engine still submits
an order — the sizer falls back to 0.01 lots instead of abstaining — so
missing account data does not make the cycle abstain. -/
theorem C9_missing_account_counterexample :
    (execute_enhanced_signal true defaultConfig
        ⟨Side.BUY, some (8/10), some 100, some 10⟩ none
        (some ⟨1/100, 2, 1, 1/100, 100, 1/100⟩) (some ⟨1999, 2000⟩)
        (fun _ => ⟨10009, "done", 2000, 1⟩) 0 0).attempts = 1
  ∧ (execute_enhanced_signal true defaultConfig
        ⟨Side.BUY, some (8/10), some 100, some 10⟩ none
        (some ⟨1/100, 2, 1, 1/100, 100, 1/100⟩) (some ⟨1999, 2000⟩)
        (fun _ => ⟨10009, "done", 2000, 1⟩) 0 0).volume = 1/100 := by
  obtain ⟨p, hp⟩ := calculate_enhanced_tp_sl_isSome defaultConfig
    ⟨Side.BUY, some (8/10), some 100, some 10⟩ ⟨1999, 2000⟩
    ⟨1/100, 2, 1, 1/100, 100, 1/100⟩ none
  rw [execute_enhanced_signal.eq_def]
  simp only [Bool.not_true, hp]
  rw [calculate_enhanced_lot_size]
  norm_num [TRADE_RETCODE_DONE]

/-- C9 amended: the engine submits no order this cycle when the tick quote
is unavailable, when the instrument metadata is missing (the exit-price
calculation raises), or when the computed lot size is non-positive; and
every submitted order carries a strictly positive volume.  Missing
account info alone, however, does not prevent submission: the sizer
falls back to 0.01 lots. -/
theorem C9_abstention_amended (connected : Bool) (cfg : Config)
    (signal : SignalData) (account : Option AccountInfo)
    (symbol : Option SymbolInfo) (tickq : Option Tick)
    (venue : FillPolicy → OrderResult) (dt cl : ℕ) :
    ((tickq = none ∨ symbol = none ∨
        calculate_enhanced_lot_size account symbol cfg signal ≤ 0) →
      (execute_enhanced_signal connected cfg signal account symbol tickq
          venue dt cl).attempts = 0)
  ∧ ((execute_enhanced_signal connected cfg signal account symbol tickq
          venue dt cl).attempts ≠ 0 →
      0 < (execute_enhanced_signal connected cfg signal account symbol tickq
          venue dt cl).volume) := by
  constructor
  · intro h
    rcases h with rfl | rfl | hle
    · simp only [execute_enhanced_signal]
      split_ifs <;> rfl
    · rcases tickq with _ | tick
      · simp only [execute_enhanced_signal]
        split_ifs <;> rfl
      · simp only [execute_enhanced_signal, calculate_enhanced_tp_sl]
        split_ifs <;> rfl
    · simp only [execute_enhanced_signal]
      split_ifs <;> rfl
  · intro h
    cases connected with
    | false => simp [execute_enhanced_signal] at h
    | true =>
      by_cases hl : calculate_enhanced_lot_size account symbol cfg signal ≤ 0
      · simp [execute_enhanced_signal, hl] at h
      · rcases tickq with _ | tick
        · simp [execute_enhanced_signal, hl] at h
        · rcases htp : calculate_enhanced_tp_sl cfg signal tick symbol account
            with _ | p
          · simp [execute_enhanced_signal, hl, htp] at h
          · simp only [execute_enhanced_signal, htp]
            rw [if_neg (by simp), if_neg hl]
            split_ifs <;> exact not_le.mp hl

/-- C9 witness: with no tick quote, no order is submitted. -/
theorem C9_abstention_amended_witness :
    (execute_enhanced_signal true defaultConfig
        ⟨Side.BUY, some (8/10), some 100, some 10⟩ none
        (some ⟨1/100, 2, 1, 1/100, 100, 1/100⟩) none
        (fun _ => ⟨10009, "done", 2000, 1⟩) 0 0).attempts = 0 :=
  (C9_abstention_amended true defaultConfig
      ⟨Side.BUY, some (8/10), some 100, some 10⟩ none
      (some ⟨1/100, 2, 1, 1/100, 100, 1/100⟩) none
      (fun _ => ⟨10009, "done", 2000, 1⟩) 0 0).1 (Or.inl rfl)

/-! ## Claim C10: consecutive_losses is never written -/

theorem execute_preserves_consecutive_losses (connected : Bool) (cfg : Config)
    (signal : SignalData) (account : Option AccountInfo)
    (symbol : Option SymbolInfo) (tickq : Option Tick)
    (venue : FillPolicy → OrderResult) (dt cl : ℕ) :
    (execute_enhanced_signal connected cfg signal account symbol tickq venue
        dt cl).consecutive_losses = cl := by
  simp only [execute_enhanced_signal]
  split_ifs <;> rcases tickq with _ | tick <;> try rfl
  all_goals
    rcases htp : calculate_enhanced_tp_sl cfg signal tick symbol account
      with _ | p <;> simp only [htp]

theorem manual_preserves_consecutive_losses (connected : Bool)
    (tickq : Option Tick) (venue : FillPolicy → OrderResult) (dt cl : ℕ) :
    (execute_manual_trade connected tickq venue dt cl).consecutive_losses
      = cl := by
  simp only [execute_manual_trade]
  split_ifs <;> rcases tickq with _ | tick <;> rfl

/-- C10: from the freshly initialised controller, no counter-touching
operation ever modifies consecutive_losses, so every reachable state
keeps it at 0 and the consecutive-losses risk check (reject at 3) can
never be the reason an intent is rejected. -/
theorem C10_consecutive_losses_invariant (s : RiskCounters)
    (h : ReachableCounters s) :
    s.consecutive_losses = 0
  ∧ ∀ (cfg : Config) (account : Option AccountInfo),
      check_enhanced_risk_limits cfg account s.daily_trades
          s.consecutive_losses
        ≠ some RiskReason.consecutiveLosses := by
  have hcl : s.consecutive_losses = 0 := by
    induction h with
    | refl => rfl
    | tail _ step ih =>
      cases step with
      | execSignal connected cfg signal account symbol tickq venue s' =>
        simpa [execute_preserves_consecutive_losses] using ih
      | manualTrade connected tickq venue s' =>
        simpa [manual_preserves_consecutive_losses] using ih
  refine ⟨hcl, ?_⟩
  intro cfg account
  rw [hcl]
  rcases account with _ | acc <;> rw [check_enhanced_risk_limits] <;>
    split_ifs <;> simp <;> omega

/-- C10 witness: the invariant applied to the initial counter state. -/
theorem C10_consecutive_losses_invariant_witness :
    initCounters.consecutive_losses = 0
  ∧ ∀ (cfg : Config) (account : Option AccountInfo),
      check_enhanced_risk_limits cfg account initCounters.daily_trades
          initCounters.consecutive_losses
        ≠ some RiskReason.consecutiveLosses :=
  C10_consecutive_losses_invariant initCounters Relation.ReflTransGen.refl

/-! ## Claim C7: RSI range and monotone behaviour -/

theorem rsi_getD_of_long (data : List ℚ) (period i : ℕ)
    (hlong : period + 1 ≤ data.length) (hi : i < data.length) :
    (rsi data period).getD i none
      = if i < period then none else some (rsiVal data period i) := by
  rw [rsi, if_neg (not_lt.mpr hlong)]
  rw [List.getD_eq_getElem _ _ (by simpa using hi)]
  simp

theorem rsiVal_mem_Icc (data : List ℚ) (period i : ℕ) (hp : 1 ≤ period) :
    0 ≤ rsiVal data period i ∧ rsiVal data period i ≤ 100 := by
  simp only [rsiVal]
  split_ifs with h
  · have hag := wilderAvg_nonneg (gains data) period hp (gains_nonneg data)
      (i - period)
    have hal : 0 < wilderAvg (losses data) period (i - period) :=
      lt_trans eps_pos h
    have hrs : 0 ≤ wilderAvg (gains data) period (i - period)
        / wilderAvg (losses data) period (i - period) :=
      div_nonneg hag hal.le
    have hle : 100 / (1 + wilderAvg (gains data) period (i - period)
        / wilderAvg (losses data) period (i - period)) ≤ 100 := by
      rw [div_le_iff₀ (by linarith)]
      nlinarith
    have hposf : 0 < 100 / (1 + wilderAvg (gains data) period (i - period)
        / wilderAvg (losses data) period (i - period)) :=
      div_pos (by norm_num) (by linarith)
    constructor <;> linarith
  · norm_num

/-- C7: every defined RSI output lies in [0,100]; on a strictly increasing
series every post-warm-up output equals 100 (the smoothed average loss is
0, triggering the epsilon branch); on a series decreasing by more than
epsilon per step every post-warm-up output equals 0; and whenever the
smoothed average loss is at most epsilon the reported value is 100. -/
theorem C7_rsi_range_and_monotone (data : List ℚ) (period : ℕ)
    (hp : 1 ≤ period) :
    (∀ o ∈ rsi data period, ∀ x, o = some x → 0 ≤ x ∧ x ≤ 100)
  ∧ (data.Chain' (· < ·) → period + 1 ≤ data.length →
      ∀ i, period ≤ i → i < data.length →
        (rsi data period).getD i none = some 100)
  ∧ (∀ δ : ℚ, eps < δ → data.Chain' (fun a b => b ≤ a - δ) →
      period + 1 ≤ data.length →
      ∀ i, period ≤ i → i < data.length →
        (rsi data period).getD i none = some 0)
  ∧ (∀ i, wilderAvg (losses data) period (i - period) ≤ eps →
      rsiVal data period i = 100) := by
  refine ⟨?_, ?_, ?_, ?_⟩
  · intro o ho x hox
    rw [rsi] at ho
    by_cases hlen : data.length < period + 1
    · rw [if_pos hlen] at ho
      have := List.eq_of_mem_replicate ho
      subst this
      obtain rfl : (50 : ℚ) = x := by injection hox
      norm_num
    · rw [if_neg hlen] at ho
      rw [List.mem_map] at ho
      obtain ⟨i, _, rfl⟩ := ho
      split_ifs at hox with hi
      obtain rfl : rsiVal data period i = x := Option.some.inj hox
      exact rsiVal_mem_Icc data period i hp
  · intro hmono hlen i hip hi
    rw [rsi_getD_of_long data period i hlen hi, if_neg (not_lt.mpr hip)]
    have hzero := wilderAvg_zero (losses data) period
      (losses_zero_of_increasing data hmono) (i - period)
    simp only [rsiVal, hzero]
    rw [if_neg (not_lt.mpr (le_of_lt eps_pos))]
  · intro δ hδ hmono hlen i hip hi
    rw [rsi_getD_of_long data period i hlen hi, if_neg (not_lt.mpr hip)]
    have hδ0 : 0 < δ := lt_trans eps_pos hδ
    have hag := wilderAvg_zero (gains data) period
      (gains_zero_of_decreasing data δ hδ0 hmono) (i - period)
    have hlosslen : (losses data).length = data.length - 1 := by
      rw [losses, List.length_map, deltas_length]
    have hal : δ ≤ wilderAvg (losses data) period (i - period) := by
      apply wilderAvg_lower (losses data) period δ hp (by omega)
        (losses_lower_of_decreasing data δ hδ0 hmono)
      omega
    simp only [rsiVal, hag]
    rw [if_pos (lt_of_lt_of_le hδ hal), zero_div, add_zero, div_one]
    norm_num
  · intro i h
    simp only [rsiVal]
    rw [if_neg (not_lt.mpr h)]

/-- C7 witness: with period 1, a strictly increasing three-sample series
reports 100 after warm-up and a steeply decreasing one reports 0. -/
theorem C7_rsi_range_and_monotone_witness :
    (rsi [(0:ℚ), 1, 2] 1).getD 1 none = some 100
  ∧ (rsi [(2:ℚ), 1, 0] 1).getD 2 none = some 0 :=
  ⟨(C7_rsi_range_and_monotone [(0:ℚ), 1, 2] 1 le_rfl).2.1
      (by norm_num [List.chain'_cons]) (by norm_num) 1 le_rfl (by norm_num),
   (C7_rsi_range_and_monotone [(2:ℚ), 1, 0] 1 le_rfl).2.2.1 1
      (by norm_num [eps]) (by norm_num [List.chain'_cons]) (by norm_num)
      2 (by norm_num) (by norm_num)⟩
